import Mathlib

/-!
Verification of the guest-command execution subsystem and the VM tools of
the ProxmoxMCP repository (`src/proxmox_mcp/tools/vm.py`,
`src/proxmox_mcp/tools/definitions.py`), shallowly embedded in Lean 4.

The coordinator (`VMConsoleManager.execute_command` in `console/manager.py`)
and the topology resolver are referenced by the sources but their code is
not part of the two files; those operations are modelled from the
specification text, each such definition carrying a doc comment saying so.
All other definitions are translated from the Python source.
-/

namespace Proxmox

/-- Error raised by the topology resolver when no node reports the VM.
Modelled from the spec: §4.1 `locate` failure modes (the Transient mode
concerns a failing enumeration call, which cannot occur once the topology
is given as data, so only NotFound remains). -/
inductive LocateError
  | notFound
deriving DecidableEq, Repr

/-- Modelled from the spec: §4.1 ClusterTopologyResolver.locate (code in the
repository outside the two source files; its enumeration pattern matches the
node/VM loops of `get_vms` in `vm.py` lines 76-82).  The topology is the
list of nodes in the order the cluster reports them, each node paired with
the list of VM ids it reports, in reported order.  `locate` enumerates all
nodes, then for each enumerates VMs, stopping at the first match, and
signals NotFound after a full enumeration without a match. -/
def locate : List (String × List Nat) → Nat → Except LocateError String
  | [], _ => .error .notFound
  | (name, vms) :: rest, vmid =>
    if vmid ∈ vms then .ok name else locate rest vmid

/-- Modelled from the spec: §4.2 GuestAgentClient.submit failure modes.
`submit` fails with AgentUnavailable if the agent is not installed/running
and with NotRunning if the VM is stopped. -/
inductive SubmitError
  | agentUnavailable
  | notRunning
deriving DecidableEq, Repr

/-- Modelled from the spec: §4.2 the record returned by one fetchStatus
poll: `{finished: bool, exitCode?, output?, error?}`. -/
structure PollStatus where
  finished : Bool
  exitCode : Option Int
  output : Option String
  error : Option String
deriving DecidableEq, Repr

/-- Modelled from the spec: §4.2 the three possible outcomes of a single
fetchStatus call: a status record, a Transient failure of the single poll,
or Unknown when the task handle is no longer recognized. -/
inductive PollResponse
  | status (s : PollStatus)
  | transient
  | unknownTask
deriving DecidableEq, Repr

/-- Modelled from the spec: §3 CommandResult
`{success: bool, output: string, errorMessage: optional string,
exitCode: optional int}`. -/
structure CommandResult where
  success : Bool
  output : String
  errorMessage : Option String
  exitCode : Option Int
deriving DecidableEq, Repr

/-- Modelled from the spec: §7 the final-failure taxonomy of one
execution: NotFound, AgentUnavailable, NotRunning, Unknown, Timeout. -/
inductive ExecFailure
  | notFound
  | agentUnavailable
  | notRunning
  | unknownTask
  | timeout
deriving DecidableEq, Repr

/-- Modelled from the spec: §4.3 the deterministic outcome of one
execution: either a CommandResult built from a finished poll, or a final
failure. -/
inductive ExecOutcome
  | completed (r : CommandResult)
  | failed (e : ExecFailure)
deriving DecidableEq, Repr

/-- Modelled from the spec: §4.3 step 3, finished=true case: build the
CommandResult from exitCode/output/error;
success = (exitCode == 0 AND no error field present). -/
def buildResult (s : PollStatus) : CommandResult :=
  { success := (s.exitCode == some 0) && (s.error == none)
  , output := s.output.getD ""
  , errorMessage := s.error
  , exitCode := s.exitCode }

/-- Modelled from the spec: §4.3 step 3, the bounded polling loop of
CommandExecutionCoordinator.execute.  `polls i` is the response of the
i-th fetchStatus call (0-indexed), `budget` the remaining attempts and
`used` the number of poll calls already issued.  The pair returned is the
outcome together with the total number of poll calls issued.
finished=true returns the built CommandResult; finished=false and
Transient each consume one attempt and continue; Unknown aborts
immediately; an exhausted budget yields Timeout. -/
def pollLoop (polls : Nat → PollResponse) : Nat → Nat → ExecOutcome × Nat
  | 0, used => (.failed .timeout, used)
  | budget + 1, used =>
    match polls used with
    | .status s =>
      if s.finished then (.completed (buildResult s), used + 1)
      else pollLoop polls budget (used + 1)
    | .transient => pollLoop polls budget (used + 1)
    | .unknownTask => (.failed .unknownTask, used + 1)

/-- Modelled from the spec: §4.3 CommandExecutionCoordinator.execute.
If `node` is absent it is resolved through `locate` (NotFound propagated
as a final failure with no poll made); then `submit` is called
(AgentUnavailable/NotRunning propagated immediately, zero polls); on a
successful submission the bounded poll loop runs with `maxAttempts`
attempts.  The returned pair is the outcome and the number of fetchStatus
calls issued. -/
def execute (nodeOpt : Option String) (topology : List (String × List Nat))
    (vmid : Nat) (submit : String → Nat → Except SubmitError Nat)
    (polls : Nat → PollResponse) (maxAttempts : Nat) : ExecOutcome × Nat :=
  match nodeOpt with
  | none =>
    match locate topology vmid with
    | .error .notFound => (.failed .notFound, 0)
    | .ok node =>
      match submit node vmid with
      | .error .agentUnavailable => (.failed .agentUnavailable, 0)
      | .error .notRunning => (.failed .notRunning, 0)
      | .ok _task => pollLoop polls maxAttempts 0
  | some node =>
    match submit node vmid with
    | .error .agentUnavailable => (.failed .agentUnavailable, 0)
    | .error .notRunning => (.failed .notRunning, 0)
    | .ok _task => pollLoop polls maxAttempts 0

/-- One entry of a node's qemu listing as consumed by `get_vms`
(`vm.py` lines 81-109): the keys `vmid`, `name`, `status` are read
unconditionally, `mem` and `maxmem` through `.get` with default 0, so the
latter two are optional. -/
structure VmListing where
  vmid : Nat
  name : String
  status : String
  mem : Option Nat
  maxmem : Option Nat
deriving DecidableEq, Repr

/-- The per-VM config as consumed by `get_vms` (`vm.py` line 91): only the
`cores` key is read, through `.get` with default "N/A", so it is
optional. -/
structure VmConfig where
  cores : Option Nat
deriving DecidableEq, Repr

/-- The `cpus` field of a `get_vms` entry (`vm.py` lines 91 and 104):
either the integer `cores` value of the config or the string "N/A". -/
inductive CpuField
  | cores (n : Nat)
  | na
deriving DecidableEq, Repr

/-- The `memory` object of a `get_vms` entry (`vm.py` lines 92-95 and
105-108). -/
structure MemoryInfo where
  used : Nat
  total : Nat
deriving DecidableEq, Repr

/-- One dictionary appended to `result` by `get_vms` (`vm.py` lines
86-96 and 99-109). -/
structure VmEntry where
  vmid : Nat
  name : String
  status : String
  node : String
  cpus : CpuField
  memory : MemoryInfo
deriving DecidableEq, Repr

/-- The slice of the Proxmox API that `get_vms` reads: the node listing
(`self.proxmox.nodes.get()`), each node's qemu listing
(`.qemu.get()`), and per-VM config retrieval
(`.qemu(vmid).config.get()`), the latter fallible. -/
structure ProxmoxState where
  nodes : List (String × List VmListing)
  configOf : String → Nat → Except String VmConfig

/-- The entry `get_vms` builds for one VM (`vm.py` lines 84-109): the
try-branch on a successful config retrieval
(`cpus = config.get("cores", "N/A")`), the except-branch on a failed one
(`cpus = "N/A"`); both read `mem`/`maxmem` with default 0. -/
def mkVmEntry (nodeName : String) (vm : VmListing)
    (cfg : Except String VmConfig) : VmEntry :=
  match cfg with
  | .ok config =>
    { vmid := vm.vmid, name := vm.name, status := vm.status
    , node := nodeName
    , cpus := match config.cores with | some n => .cores n | none => .na
    , memory := { used := vm.mem.getD 0, total := vm.maxmem.getD 0 } }
  | .error _ =>
    { vmid := vm.vmid, name := vm.name, status := vm.status
    , node := nodeName
    , cpus := .na
    , memory := { used := vm.mem.getD 0, total := vm.maxmem.getD 0 } }

/-- Function `get_vms` (`vm.py` lines 76-110): for every node of the cluster
listing, for every VM of the node's qemu listing, append one entry;
a failed per-VM config retrieval is caught and the fallback entry
appended instead, never propagated. -/
def get_vms (st : ProxmoxState) : List VmEntry :=
  (st.nodes.map (fun nd =>
    nd.2.map (fun vm => mkVmEntry nd.1 vm (st.configOf nd.1 vm.vmid)))).flatten

/-- List `valid_actions` (`vm.py` lines 170-172). -/
def valid_actions : List String :=
  ["start", "stop", "shutdown", "reboot", "reset", "suspend", "resume",
   "pause", "hibernate"]

/-- The two ValueError sites of `change_vm_state` (`vm.py` lines 174 and
180): an action outside `valid_actions`, or an action the status endpoint
does not expose. -/
inductive VmStateError
  | invalidAction (action : String)
  | unsupportedAction (action : String)
deriving DecidableEq, Repr

/-- The success dictionary of `change_vm_state` (`vm.py` lines 183-188). -/
structure StateChangeResult where
  success : Bool
  action : String
  vmid : String
  node : String
deriving DecidableEq, Repr

/-- Function `change_vm_state` (`vm.py` lines 169-189).  The status endpoint is
modelled by the list of attribute names `getattr` resolves on it; the
second component of the returned pair is the list of POST requests
issued (each as the action name posted), empty when the function fails
before any dispatch. -/
def change_vm_state (supported : List String) (node vmid action : String) :
    Except VmStateError StateChangeResult × List String :=
  if action ∈ valid_actions then
    if action ∈ supported then
      (.ok { success := true, action := action, vmid := vmid, node := node },
       [action])
    else
      (.error (.unsupportedAction action), [])
  else
    (.error (.invalidAction action), [])

/-- The params dictionary `create_vm` posts (`vm.py` lines 223-233). -/
structure CreateParams where
  vmid : Nat
  name : String
  ide2 : String
  ostype : String
  cores : Nat
  memory : Nat
  scsihw : String
  scsi0 : String
  boot : String
deriving DecidableEq, Repr

/-- The success dictionary of `create_vm` (`vm.py` lines 235-240). -/
structure CreateResult where
  success : Bool
  vmid : Nat
  name : String
  node : String
deriving DecidableEq, Repr

/-- Function `create_vm` (`vm.py` lines 219-241): the VM id is
`int(self.proxmox.cluster.nextid.get())` fetched at call time (given here
already parsed as `nextid`); the params are built exactly as lines
223-233 and posted; on success the result reports success=true with that
vmid, the given name and node.  Returned are the posted params and the
result. -/
def create_vm (nextid : Nat) (node name iso : String)
    (cores memory : Nat) (storage : String) : CreateParams × CreateResult :=
  let vmid := nextid
  ({ vmid := vmid, name := name, ide2 := iso ++ ",media=cdrom"
   , ostype := "l26", cores := cores, memory := memory
   , scsihw := "virtio-scsi-pci", scsi0 := storage ++ ":32"
   , boot := "order=ide2;scsi0" },
   { success := true, vmid := vmid, name := name, node := node })

/-- A poll response that lets the loop continue: a Transient failure or a
status record with finished=false. -/
def nonTerminal (p : PollResponse) : Prop :=
  p = .transient ∨ ∃ s, p = .status s ∧ s.finished = false

theorem pollLoop_count_le (polls : Nat → PollResponse) :
    ∀ budget used, (pollLoop polls budget used).2 ≤ used + budget := by
  intro budget
  induction budget with
  | zero => intro used; simp [pollLoop]
  | succ b ih =>
    intro used
    cases h : polls used with
    | status s =>
      by_cases hf : s.finished = true
      · simp [pollLoop, h, hf]
      · have hb := ih (used + 1)
        simp only [Bool.not_eq_true] at hf
        simp [pollLoop, h, hf]
        omega
    | transient =>
      have hb := ih (used + 1)
      simp only [pollLoop, h]
      omega
    | unknownTask =>
      simp [pollLoop, h]

theorem pollLoop_completed (polls : Nat → PollResponse) :
    ∀ budget used r n, pollLoop polls budget used = (.completed r, n) →
      ∃ s, polls (n - 1) = .status s ∧ s.finished = true ∧
        r = buildResult s ∧ used < n := by
  intro budget
  induction budget with
  | zero =>
    intro used r n h
    simp [pollLoop] at h
  | succ b ih =>
    intro used r n h
    cases hp : polls used with
    | status s =>
      by_cases hf : s.finished = true
      · simp only [pollLoop, hp, hf, if_true] at h
        simp only [Prod.mk.injEq, ExecOutcome.completed.injEq] at h
        obtain ⟨h1, h2⟩ := h
        refine ⟨s, ?_, hf, h1.symm, ?_⟩
        · subst h2
          simpa using hp
        · omega
      · simp only [Bool.not_eq_true] at hf
        simp only [pollLoop, hp, hf, Bool.false_eq_true, if_false] at h
        obtain ⟨s2, hs1, hs2, hs3, hs4⟩ := ih (used + 1) r n h
        exact ⟨s2, hs1, hs2, hs3, by omega⟩
    | transient =>
      simp only [pollLoop, hp] at h
      obtain ⟨s2, hs1, hs2, hs3, hs4⟩ := ih (used + 1) r n h
      exact ⟨s2, hs1, hs2, hs3, by omega⟩
    | unknownTask =>
      simp [pollLoop, hp] at h

theorem pollLoop_exhaust (polls : Nat → PollResponse) :
    ∀ budget used,
      (∀ i, used ≤ i → i < used + budget → nonTerminal (polls i)) →
      pollLoop polls budget used = (.failed .timeout, used + budget) := by
  intro budget
  induction budget with
  | zero => intro used _; simp [pollLoop]
  | succ b ih =>
    intro used h
    have h0 := h used (Nat.le_refl _) (by omega)
    have hrec : pollLoop polls b (used + 1) = (.failed .timeout, used + 1 + b) :=
      ih (used + 1) (fun i h1 h2 => h i (by omega) (by omega))
    have harith : used + 1 + b = used + (b + 1) := by omega
    rw [harith] at hrec
    rcases h0 with ht | ⟨s, hs, hf⟩
    · simp only [pollLoop, ht]
      exact hrec
    · simp only [pollLoop, hs, hf, Bool.false_eq_true, if_false]
      exact hrec

theorem pollLoop_unknown (polls : Nat → PollResponse) :
    ∀ budget used k, k < budget →
      polls (used + k) = .unknownTask →
      (∀ i, used ≤ i → i < used + k → nonTerminal (polls i)) →
      pollLoop polls budget used = (.failed .unknownTask, used + k + 1) := by
  intro budget
  induction budget with
  | zero => intro used k hk; omega
  | succ b ih =>
    intro used k hk hu hpre
    cases k with
    | zero =>
      simp only [Nat.add_zero] at hu
      simp [pollLoop, hu]
    | succ k1 =>
      have h0 := hpre used (Nat.le_refl _) (by omega)
      have hrec : pollLoop polls b (used + 1) =
          (.failed .unknownTask, used + 1 + k1 + 1) :=
        ih (used + 1) k1 (by omega)
          (by rw [show used + 1 + k1 = used + (k1 + 1) by omega]; exact hu)
          (fun i h1 h2 => hpre i (by omega) (by omega))
      have harith : used + 1 + k1 + 1 = used + (k1 + 1) + 1 := by omega
      rw [harith] at hrec
      rcases h0 with ht | ⟨s, hs, hf⟩
      · simp only [pollLoop, ht]
        exact hrec
      · simp only [pollLoop, hs, hf, Bool.false_eq_true, if_false]
        exact hrec

theorem execute_completed_pollLoop (nodeOpt : Option String)
    (topology : List (String × List Nat)) (vmid : Nat)
    (submit : String → Nat → Except SubmitError Nat)
    (polls : Nat → PollResponse) (maxAttempts : Nat)
    (r : CommandResult) (n : Nat)
    (h : execute nodeOpt topology vmid submit polls maxAttempts
      = (.completed r, n)) :
    pollLoop polls maxAttempts 0 = (.completed r, n) := by
  cases nodeOpt with
  | none =>
    simp only [execute] at h
    cases hl : locate topology vmid with
    | error e =>
      cases e
      simp [hl] at h
    | ok node =>
      simp only [hl] at h
      cases hs : submit node vmid with
      | error e =>
        cases e <;> simp [hs] at h
      | ok t =>
        simpa [hs] using h
  | some node =>
    simp only [execute] at h
    cases hs : submit node vmid with
    | error e =>
      cases e <;> simp [hs] at h
    | ok t =>
      simpa [hs] using h

/-- C1: for every invocation of execute, the returned CommandResult has
success=true only if the final fetchStatus poll reported finished=true,
the reported exitCode equals 0 and the agent set no error field; under
any other combination success is false. -/
theorem execute_success_iff_clean_finish (nodeOpt : Option String)
    (topology : List (String × List Nat)) (vmid : Nat)
    (submit : String → Nat → Except SubmitError Nat)
    (polls : Nat → PollResponse) (maxAttempts : Nat)
    (r : CommandResult) (n : Nat)
    (h : execute nodeOpt topology vmid submit polls maxAttempts
      = (.completed r, n)) :
    r.success = true ↔
      ∃ s, polls (n - 1) = .status s ∧ s.finished = true ∧
        s.exitCode = some 0 ∧ s.error = none := by
  have hp := execute_completed_pollLoop nodeOpt topology vmid submit polls
    maxAttempts r n h
  obtain ⟨s, hps, hfin, hr, _⟩ :=
    pollLoop_completed polls maxAttempts 0 r n hp
  subst hr
  constructor
  · intro hsucc
    simp only [buildResult, Bool.and_eq_true, beq_iff_eq] at hsucc
    exact ⟨s, hps, hfin, hsucc.1, hsucc.2⟩
  · rintro ⟨s2, hps2, -, hexit, herr⟩
    rw [hps] at hps2
    injection hps2 with hss
    subst hss
    simp [buildResult, hexit, herr]

/-- C1 witness: a concrete run finishing on the first poll with exitCode 0
and no error field yields success=true. -/
theorem execute_success_iff_clean_finish_witness :
    ({ success := true, output := "Linux vm1 5.4.0", errorMessage := none
     , exitCode := some 0 } : CommandResult).success = true :=
  (execute_success_iff_clean_finish (some "pve1") [] 100 (fun _ _ => .ok 1)
      (fun _ => .status ⟨true, some 0, some "Linux vm1 5.4.0", none⟩) 10
      { success := true, output := "Linux vm1 5.4.0", errorMessage := none
      , exitCode := some 0 } 1 (by decide)).mpr
    ⟨⟨true, some 0, some "Linux vm1 5.4.0", none⟩, rfl, rfl, rfl, rfl⟩

/-- C2: execute issues at most maxAttempts poll calls, and when every poll
reports finished=false it returns a Timeout failure after exactly
maxAttempts poll calls, never a success. -/
theorem execute_timeout_after_maxAttempts (node : String)
    (topology : List (String × List Nat)) (vmid : Nat)
    (submit : String → Nat → Except SubmitError Nat)
    (polls : Nat → PollResponse) (N : Nat) (t : Nat) :
    (execute (some node) topology vmid submit polls N).2 ≤ N ∧
    (submit node vmid = .ok t →
      (∀ i, i < N → ∃ s, polls i = .status s ∧ s.finished = false) →
      execute (some node) topology vmid submit polls N
        = (.failed .timeout, N)) := by
  constructor
  · cases hs : submit node vmid with
    | error e => cases e <;> simp [execute, hs]
    | ok t2 =>
      simp only [execute, hs]
      have := pollLoop_count_le polls N 0
      omega
  · intro hs hall
    simp only [execute, hs]
    have := pollLoop_exhaust polls N 0
      (fun i h1 h2 => Or.inr (hall i (by omega)))
    simpa using this

/-- C2 witness: with maxAttempts=3 and every poll reporting
finished=false, the result is Timeout after exactly 3 poll calls. -/
theorem execute_timeout_after_maxAttempts_witness :
    execute (some "pve1") [] 100 (fun _ _ => .ok 1)
      (fun _ => .status ⟨false, none, none, none⟩) 3
      = (.failed .timeout, 3) :=
  (execute_timeout_after_maxAttempts "pve1" [] 100 (fun _ _ => .ok 1)
      (fun _ => .status ⟨false, none, none, none⟩) 3 1).2 rfl
    (fun _ _ => ⟨⟨false, none, none, none⟩, rfl, rfl⟩)

/-- C3: an Unknown-task poll response at (0-indexed) attempt k with
k < maxAttempts, the earlier polls all non-terminal, makes execute stop
with the Unknown failure after exactly k+1 poll calls — not a Timeout,
and no poll after attempt k. -/
theorem execute_unknown_aborts_polling (node : String)
    (topology : List (String × List Nat)) (vmid : Nat)
    (submit : String → Nat → Except SubmitError Nat)
    (polls : Nat → PollResponse) (N t k : Nat)
    (hsub : submit node vmid = .ok t) (hk : k < N)
    (hu : polls k = .unknownTask)
    (hpre : ∀ i, i < k → nonTerminal (polls i)) :
    execute (some node) topology vmid submit polls N
      = (.failed .unknownTask, k + 1) := by
  simp only [execute, hsub]
  have := pollLoop_unknown polls N 0 k hk (by simpa using hu)
    (fun i h1 h2 => hpre i (by omega))
  simpa using this

/-- C3 witness: with maxAttempts=3, a transient first poll and an Unknown
response on the second poll, execute stops with the Unknown failure after
2 poll calls. -/
theorem execute_unknown_aborts_polling_witness :
    execute (some "pve1") [] 100 (fun _ _ => .ok 1)
      (fun i => if i = 0 then .transient else .unknownTask) 3
      = (.failed .unknownTask, 2) :=
  execute_unknown_aborts_polling "pve1" [] 100 (fun _ _ => .ok 1)
    (fun i => if i = 0 then .transient else .unknownTask) 3 1 1
    rfl (by decide) rfl
    (fun i hi => Or.inl (by simp [Nat.lt_one_iff.mp hi]))

/-- C5: a submission failing with NotRunning or AgentUnavailable is
returned by execute as that final failure immediately, with zero
fetchStatus poll calls and no retry of the submission. -/
theorem execute_submit_failure_no_polls (node : String)
    (topology : List (String × List Nat)) (vmid : Nat)
    (submit : String → Nat → Except SubmitError Nat)
    (polls : Nat → PollResponse) (N : Nat) :
    (submit node vmid = .error .notRunning →
      execute (some node) topology vmid submit polls N
        = (.failed .notRunning, 0)) ∧
    (submit node vmid = .error .agentUnavailable →
      execute (some node) topology vmid submit polls N
        = (.failed .agentUnavailable, 0)) := by
  constructor <;> (intro hs; simp [execute, hs])

/-- C5 witness: a stopped VM (NotRunning) and a missing agent
(AgentUnavailable) each produce their final failure with zero polls. -/
theorem execute_submit_failure_no_polls_witness :
    execute (some "pve1") [] 100 (fun _ _ => .error .notRunning)
      (fun _ => .transient) 3 = (.failed .notRunning, 0) ∧
    execute (some "pve1") [] 100 (fun _ _ => .error .agentUnavailable)
      (fun _ => .transient) 3 = (.failed .agentUnavailable, 0) :=
  ⟨(execute_submit_failure_no_polls "pve1" [] 100
      (fun _ _ => .error .notRunning) (fun _ => .transient) 3).1 rfl,
   (execute_submit_failure_no_polls "pve1" [] 100
      (fun _ _ => .error .agentUnavailable) (fun _ => .transient) 3).2 rfl⟩

/-- C6: a Transient poll response consumes one attempt of the budget
without aborting the loop, and when every one of the maxAttempts
iterations fails Transiently the loop exhausts normally and execute
returns a Timeout failure. -/
theorem execute_transient_consumes_attempts (node : String)
    (topology : List (String × List Nat)) (vmid : Nat)
    (submit : String → Nat → Except SubmitError Nat)
    (polls : Nat → PollResponse) (N t : Nat) :
    (∀ used, polls used = .transient →
      pollLoop polls (N + 1) used = pollLoop polls N (used + 1)) ∧
    (submit node vmid = .ok t →
      (∀ i, i < N → polls i = .transient) →
      execute (some node) topology vmid submit polls N
        = (.failed .timeout, N)) := by
  constructor
  · intro used ht
    simp [pollLoop, ht]
  · intro hs hall
    simp only [execute, hs]
    have := pollLoop_exhaust polls N 0
      (fun i h1 h2 => Or.inl (hall i (by omega)))
    simpa using this

/-- C6 witness: with maxAttempts=3 and every poll failing Transiently,
the loop exhausts and execute returns Timeout after 3 polls. -/
theorem execute_transient_consumes_attempts_witness :
    execute (some "pve1") [] 100 (fun _ _ => .ok 1)
      (fun _ => .transient) 3 = (.failed .timeout, 3) :=
  (execute_transient_consumes_attempts "pve1" [] 100 (fun _ _ => .ok 1)
      (fun _ => .transient) 3 1).2 rfl (fun _ _ => rfl)

/-- C4: a VM id contained in exactly one node's listing makes locate
return that node; a VM id absent from every listing makes locate fail
with NotFound after the full enumeration; and locate picks the first
match in the order the topology lists nodes. -/
theorem locate_first_match_or_notFound
    (nodes : List (String × List Nat)) (vmid : Nat)
    (target : String × List Nat) :
    ((target ∈ nodes ∧ vmid ∈ target.2 ∧
        ∀ p ∈ nodes, vmid ∈ p.2 → p = target) →
      locate nodes vmid = .ok target.1) ∧
    ((∀ p ∈ nodes, vmid ∉ p.2) →
      locate nodes vmid = .error .notFound) ∧
    (nodes.find? (fun p => decide (vmid ∈ p.2)) = some target →
      locate nodes vmid = .ok target.1) := by
  refine ⟨?_, ?_, ?_⟩
  · intro ⟨hmem, hin, huniq⟩
    induction nodes with
    | nil => cases hmem
    | cons hd tl ih =>
      obtain ⟨name, vms⟩ := hd
      by_cases hhd : vmid ∈ vms
      · have := huniq (name, vms) (List.mem_cons_self _ _) hhd
        simp [locate, hhd, ← this]
      · simp only [locate, hhd, if_false]
        rcases List.mem_cons.mp hmem with heq | htl
        · rw [heq] at hin
          exact absurd hin hhd
        · exact ih htl
            (fun p hp hvp => huniq p (List.mem_cons_of_mem _ hp) hvp)
  · intro habs
    induction nodes with
    | nil => simp [locate]
    | cons hd tl ih =>
      obtain ⟨name, vms⟩ := hd
      have hhd : vmid ∉ vms := habs (name, vms) (List.mem_cons_self _ _)
      simp only [locate, hhd, if_false]
      exact ih (fun p hp => habs p (List.mem_cons_of_mem _ hp))
  · intro hfind
    induction nodes with
    | nil => simp at hfind
    | cons hd tl ih =>
      obtain ⟨name, vms⟩ := hd
      by_cases hhd : vmid ∈ vms
      · rw [List.find?_cons_of_pos _ (by simpa using hhd)] at hfind
        injection hfind with hfind
        simp [locate, hhd, ← hfind]
      · rw [List.find?_cons_of_neg _ (by simpa using hhd)] at hfind
        simp only [locate, hhd, if_false]
        exact ih hfind

/-- C4 witness: in a two-node topology, a VM id listed only on the second
node resolves to that node, and an unlisted VM id yields NotFound. -/
theorem locate_first_match_or_notFound_witness :
    locate [("pve1", [101]), ("pve2", [200, 201])] 200 = .ok "pve2" ∧
    locate [("pve1", [101]), ("pve2", [200, 201])] 999
      = .error .notFound ∧
    locate [("pve1", [101]), ("pve2", [200, 201])] 101 = .ok "pve1" := by
  refine ⟨?_, ?_, ?_⟩
  · exact (locate_first_match_or_notFound
      [("pve1", [101]), ("pve2", [200, 201])] 200 ("pve2", [200, 201])).1
      ⟨by simp, by simp, by decide⟩
  · exact (locate_first_match_or_notFound
      [("pve1", [101]), ("pve2", [200, 201])] 999 ("pve2", [200, 201])).2.1
      (by decide)
  · exact (locate_first_match_or_notFound
      [("pve1", [101]), ("pve2", [200, 201])] 101 ("pve1", [101])).2.2
      (by decide)

/-- C7: an action string outside the fixed valid set makes
change_vm_state fail with the ValueError of line 174 (modelled as
invalidAction) and issue no POST request: the rejection happens before
any dispatch. -/
theorem change_vm_state_rejects_invalid_action (supported : List String)
    (node vmid action : String)
    (h : action ∉ valid_actions) :
    change_vm_state supported node vmid action
      = (.error (.invalidAction action), []) := by
  simp [change_vm_state, h]

/-- C7 witness: the action "destroy" is rejected with the invalid-action
error and zero POSTs, whatever the status endpoint supports. -/
theorem change_vm_state_rejects_invalid_action_witness :
    change_vm_state ["start", "stop"] "pve1" "100" "destroy"
      = (.error (.invalidAction "destroy"), []) :=
  change_vm_state_rejects_invalid_action ["start", "stop"] "pve1" "100"
    "destroy" (by decide)

/-- C8: a VM whose config retrieval fails still yields a get_vms entry
(the exception is caught, not propagated); that entry equals in every
field the non-fallback entry except that cpus is the "N/A" marker, and
it is literally equal to the non-fallback entry for a config with no
cores key, so a caller cannot tell the two apart. -/
theorem get_vms_config_failure_fallback (st : ProxmoxState)
    (nodeName : String) (vms : List VmListing) (vm : VmListing)
    (msg : String)
    (hnd : (nodeName, vms) ∈ st.nodes) (hvm : vm ∈ vms)
    (herr : st.configOf nodeName vm.vmid = .error msg) :
    mkVmEntry nodeName vm (.error msg) ∈ get_vms st ∧
    mkVmEntry nodeName vm (.error msg)
      = mkVmEntry nodeName vm (.ok ⟨none⟩) ∧
    ∀ cfg : VmConfig,
      (mkVmEntry nodeName vm (.error msg)).vmid
          = (mkVmEntry nodeName vm (.ok cfg)).vmid ∧
      (mkVmEntry nodeName vm (.error msg)).name
          = (mkVmEntry nodeName vm (.ok cfg)).name ∧
      (mkVmEntry nodeName vm (.error msg)).status
          = (mkVmEntry nodeName vm (.ok cfg)).status ∧
      (mkVmEntry nodeName vm (.error msg)).node
          = (mkVmEntry nodeName vm (.ok cfg)).node ∧
      (mkVmEntry nodeName vm (.error msg)).memory
          = (mkVmEntry nodeName vm (.ok cfg)).memory ∧
      (mkVmEntry nodeName vm (.error msg)).cpus = .na := by
  refine ⟨?_, ?_, ?_⟩
  · refine List.mem_flatten.mpr
      ⟨(nodeName, vms).2.map
        (fun v => mkVmEntry (nodeName, vms).1 v
          (st.configOf (nodeName, vms).1 v.vmid)), ?_, ?_⟩
    · exact List.mem_map_of_mem _ hnd
    · have hm : mkVmEntry nodeName vm (st.configOf nodeName vm.vmid)
          ∈ vms.map
            (fun v => mkVmEntry nodeName v (st.configOf nodeName v.vmid)) :=
        List.mem_map_of_mem _ hvm
      rw [herr] at hm
      exact hm
  · rfl
  · intro cfg
    exact ⟨rfl, rfl, rfl, rfl, rfl, rfl⟩

/-- C8 witness: with a single node and a config retrieval that always
fails, the fallback entry is in the output of get_vms and equals the
non-fallback entry for a config without a cores key. -/
theorem get_vms_config_failure_fallback_witness :
    mkVmEntry "pve1" ⟨100, "vm1", "running", some 512, some 1024⟩
        (.error "boom")
      ∈ get_vms ⟨[("pve1", [⟨100, "vm1", "running", some 512, some 1024⟩])],
          fun _ _ => .error "boom"⟩ ∧
    mkVmEntry "pve1" ⟨100, "vm1", "running", some 512, some 1024⟩
        (.error "boom")
      = mkVmEntry "pve1" ⟨100, "vm1", "running", some 512, some 1024⟩
        (.ok ⟨none⟩) := by
  have h := get_vms_config_failure_fallback
    ⟨[("pve1", [⟨100, "vm1", "running", some 512, some 1024⟩])],
      fun _ _ => .error "boom"⟩
    "pve1" [⟨100, "vm1", "running", some 512, some 1024⟩]
    ⟨100, "vm1", "running", some 512, some 1024⟩ "boom"
    (by simp) (by simp) rfl
  exact ⟨h.1, h.2.1⟩

/-- C9: create_vm posts exactly the vmid fetched from cluster.nextid,
always a fixed 32GB scsi0 disk, the given ISO as ide2 cdrom, ostype
"l26" and boot order "order=ide2;scsi0", and on success reports
success=true with that vmid, the given name and node. -/
theorem create_vm_params_and_result (nextid : Nat)
    (node name iso storage : String) (cores memory : Nat) :
    (create_vm nextid node name iso cores memory storage).1.vmid
        = nextid ∧
    (create_vm nextid node name iso cores memory storage).1.ide2
        = iso ++ ",media=cdrom" ∧
    (create_vm nextid node name iso cores memory storage).1.ostype
        = "l26" ∧
    (create_vm nextid node name iso cores memory storage).1.scsi0
        = storage ++ ":32" ∧
    (create_vm nextid node name iso cores memory storage).1.boot
        = "order=ide2;scsi0" ∧
    (create_vm nextid node name iso cores memory storage).2
        = { success := true, vmid := nextid, name := name, node := node } :=
  ⟨rfl, rfl, rfl, rfl, rfl, rfl⟩

/-- C10: every entry produced by get_vms carries a memory object whose
used and total fields are the listing's mem and maxmem values, defaulted
to 0 when absent, on the normal path and on the config-fallback path
alike. -/
theorem get_vms_memory_fields (st : ProxmoxState) :
    (∀ entry ∈ get_vms st, ∃ nd ∈ st.nodes, ∃ vm ∈ nd.2,
      entry.memory
        = { used := vm.mem.getD 0, total := vm.maxmem.getD 0 }) ∧
    (∀ (n : String) (vm : VmListing) (cfg : Except String VmConfig),
      (mkVmEntry n vm cfg).memory
        = { used := vm.mem.getD 0, total := vm.maxmem.getD 0 }) := by
  have hmk : ∀ (n : String) (vm : VmListing) (cfg : Except String VmConfig),
      (mkVmEntry n vm cfg).memory
        = { used := vm.mem.getD 0, total := vm.maxmem.getD 0 } := by
    intro n vm cfg
    cases cfg <;> rfl
  refine ⟨?_, hmk⟩
  intro entry hentry
  obtain ⟨l, hl, hel⟩ := List.mem_flatten.mp hentry
  obtain ⟨nd, hnd, hmap⟩ := List.mem_map.mp hl
  subst hmap
  obtain ⟨vm, hvm, hev⟩ := List.mem_map.mp hel
  subst hev
  exact ⟨nd, hnd, vm, hvm, hmk nd.1 vm (st.configOf nd.1 vm.vmid)⟩

/-- C10 witness: a concrete fallback entry with mem=512 present and
maxmem absent reports memory used=512 and total=0, and the entry of a
one-node cluster is covered by the membership part. -/
theorem get_vms_memory_fields_witness :
    (∃ nd ∈ ([("pve1", [⟨100, "vm1", "running", some 512, some 1024⟩])]
        : List (String × List VmListing)), ∃ vm ∈ nd.2,
      (mkVmEntry "pve1" ⟨100, "vm1", "running", some 512, some 1024⟩
        (.error "x")).memory
        = { used := vm.mem.getD 0, total := vm.maxmem.getD 0 }) ∧
    (mkVmEntry "pve1" ⟨100, "vm1", "running", some 512, none⟩
      (.error "x")).memory = { used := 512, total := 0 } := by
  have h := get_vms_memory_fields
    ⟨[("pve1", [⟨100, "vm1", "running", some 512, some 1024⟩])],
      fun _ _ => .error "x"⟩
  constructor
  · exact h.1
      (mkVmEntry "pve1" ⟨100, "vm1", "running", some 512, some 1024⟩
        (.error "x"))
      (by simp [get_vms, mkVmEntry])
  · exact h.2 "pve1" ⟨100, "vm1", "running", some 512, none⟩ (.error "x")

end Proxmox
